import Mathlib

/-!
Shallow embedding of the market-session scheduler of StockMonitor
(the market helpers in src/components/Dashboard.tsx together with the
constants of the market configuration module).

Time is modelled as a natural number of milliseconds of exchange-local
(US Eastern) wall-clock time, counted from a reference midnight that
fell on a Sunday, so day index 0 is a Sunday and the JavaScript
getDay() of an instant t is (dayIndex t) % 7.  The holiday library
call isHoliday(date) depends only on the calendar date, so it is
modelled as an oracle on day indices; the oracle value none models a
call that throws, matching the try/catch structure of the source.
-/

namespace StockMonitor

/-- Milliseconds in one minute. -/
def msPerMin : Nat := 60000

/-- Milliseconds in one hour. -/
def msPerHour : Nat := 3600000

/-- Milliseconds in one day. -/
def msPerDay : Nat := 86400000

/-- MARKET_CONFIG.MARKET_OPEN: 9:30 AM as minutes since midnight. -/
def MARKET_CONFIG.MARKET_OPEN : Nat := 9 * 60 + 30

/-- MARKET_CONFIG.MARKET_CLOSE: 4:30 PM as minutes since midnight. -/
def MARKET_CONFIG.MARKET_CLOSE : Nat := 16 * 60 + 30

/-- MARKET_CONFIG.FINAL_CLOSE: 4:31 PM as minutes since midnight. -/
def MARKET_CONFIG.FINAL_CLOSE : Nat := 16 * 60 + 31

/-- MARKET_CONFIG.TRADING_DAYS.MIN (Monday). -/
def MARKET_CONFIG.TRADING_DAYS_MIN : Nat := 1

/-- MARKET_CONFIG.TRADING_DAYS.MAX (Friday). -/
def MARKET_CONFIG.TRADING_DAYS_MAX : Nat := 5

/-- MARKET_CONFIG.POLLING.MARKET_OPEN: price interval while open. -/
def MARKET_CONFIG.POLLING_MARKET_OPEN : Nat := 60000

/-- MARKET_CONFIG.POLLING.FINAL_CAPTURE: price interval in the final capture window. -/
def MARKET_CONFIG.POLLING_FINAL_CAPTURE : Nat := 60000

/-- MARKET_CONFIG.POLLING.NEWS_MARKET_OPEN: news interval while open. -/
def MARKET_CONFIG.POLLING_NEWS_MARKET_OPEN : Nat := 15 * 60 * 1000

/-- MARKET_CONFIG.POLLING.NEWS_MARKET_CLOSED: news interval while closed. -/
def MARKET_CONFIG.POLLING_NEWS_MARKET_CLOSED : Nat := 2 * 60 * 60 * 1000

/-- The MarketStatus string union of marketConfig.ts. -/
inductive MarketStatus where
  | MARKET_OPEN
  | MARKET_CLOSED
  | FINAL_CAPTURE
  | WEEKEND
deriving DecidableEq, Repr

/-- The PollingConfig interface of marketConfig.ts; priceInterval none
models the null sentinel. -/
structure PollingConfig where
  priceInterval : Option Nat
  newsInterval : Nat
  shouldPoll : Bool
deriving DecidableEq, Repr

/-- The NextMarketChange interface of marketConfig.ts.  The
milliseconds field is an integer, as a JavaScript getTime difference
can in principle be negative. -/
structure NextMarketChange where
  milliseconds : Int
  nextStatus : MarketStatus
  description : String
deriving DecidableEq, Repr

/-- The result shape of getTimeUntilMarketOpen. -/
structure TimeUntilOpen where
  days : Int
  hours : Int
  minutes : Int
  totalMinutes : Int
deriving DecidableEq, Repr

/-- The nyse-holidays predicate, indexed by day number; none models a
call that throws. -/
abbrev HolidayOracle := Nat → Option Bool

/-- Day index of an instant (JavaScript date arithmetic at day granularity). -/
def dayIndex (t : Nat) : Nat := t / msPerDay

/-- JavaScript getDay(): 0 = Sunday .. 6 = Saturday. -/
def getDay (t : Nat) : Nat := dayIndex t % 7

/-- JavaScript getHours() of the eastern wall-clock instant. -/
def getHours (t : Nat) : Nat := t % msPerDay / msPerHour

/-- JavaScript getMinutes() of the eastern wall-clock instant. -/
def getMinutes (t : Nat) : Nat := t % msPerHour / msPerMin

/-- Dashboard.tsx: easternTime.getHours() * 60 + easternTime.getMinutes(). -/
def currentTimeInMinutes (t : Nat) : Nat := getHours t * 60 + getMinutes t

/-- Models date.setHours(h, m, 0, 0): same calendar day, new time of day. -/
def setTimeOfDay (t : Nat) (h m : Nat) : Nat :=
  dayIndex t * msPerDay + (h * 60 + m) * msPerMin

/-- Models date.setDate(date.getDate() + k): k days later, same time of day. -/
def addDays (t : Nat) (k : Nat) : Nat := t + k * msPerDay

/-- Dashboard.tsx isCurrentDateHoliday: wraps the holiday call in
try/catch and defaults to not-holiday on error. -/
def isCurrentDateHoliday (t : Nat) (hol : HolidayOracle) : Bool :=
  (hol (dayIndex t)).getD false

/-- Dashboard.tsx getCurrentMarketInfo().isWeekday. -/
def isWeekday (t : Nat) : Bool :=
  decide (MARKET_CONFIG.TRADING_DAYS_MIN ≤ getDay t) &&
    decide (getDay t ≤ MARKET_CONFIG.TRADING_DAYS_MAX)

/-- Dashboard.tsx isMarketOpen: holiday and weekday guards, then the
inclusive window test on minutes since midnight. -/
def isMarketOpen (t : Nat) (hol : HolidayOracle) : Bool :=
  if isCurrentDateHoliday t hol then false
  else if !(isWeekday t) then false
  else
    decide (MARKET_CONFIG.MARKET_OPEN ≤ currentTimeInMinutes t) &&
      decide (currentTimeInMinutes t ≤ MARKET_CONFIG.MARKET_CLOSE)

/-- Dashboard.tsx isFinalCaptureWindow: weekday test, then equality
with the final-capture minute; no holiday test in the source. -/
def isFinalCaptureWindow (t : Nat) : Bool :=
  if decide (getDay t < MARKET_CONFIG.TRADING_DAYS_MIN) ||
      decide (MARKET_CONFIG.TRADING_DAYS_MAX < getDay t) then false
  else decide (currentTimeInMinutes t = MARKET_CONFIG.FINAL_CLOSE)

/-- Dashboard.tsx getMarketStatus: holiday, weekend, open, final
capture, closed, in that priority order. -/
def getMarketStatus (t : Nat) (hol : HolidayOracle) : MarketStatus :=
  if isCurrentDateHoliday t hol then .MARKET_CLOSED
  else if !(isWeekday t) then .WEEKEND
  else if isMarketOpen t hol then .MARKET_OPEN
  else if isFinalCaptureWindow t then .FINAL_CAPTURE
  else .MARKET_CLOSED

/-- The switch statement of Dashboard.tsx getPollingConfig as a
function of the computed status. -/
def pollingConfigFor : MarketStatus → PollingConfig
  | .MARKET_OPEN =>
      { priceInterval := some MARKET_CONFIG.POLLING_MARKET_OPEN,
        newsInterval := MARKET_CONFIG.POLLING_NEWS_MARKET_OPEN,
        shouldPoll := true }
  | .FINAL_CAPTURE =>
      { priceInterval := some MARKET_CONFIG.POLLING_FINAL_CAPTURE,
        newsInterval := MARKET_CONFIG.POLLING_NEWS_MARKET_OPEN,
        shouldPoll := true }
  | .MARKET_CLOSED =>
      { priceInterval := none,
        newsInterval := MARKET_CONFIG.POLLING_NEWS_MARKET_CLOSED,
        shouldPoll := false }
  | .WEEKEND =>
      { priceInterval := none,
        newsInterval := MARKET_CONFIG.POLLING_NEWS_MARKET_CLOSED,
        shouldPoll := false }

/-- Dashboard.tsx getPollingConfig: compute the status, then switch
on it. -/
def getPollingConfig (t : Nat) (hol : HolidayOracle) : PollingConfig :=
  pollingConfigFor (getMarketStatus t hol)

/-- The while loop shared by getNextMarketStateChange and the do-while
of getTimeUntilMarketOpen: advance one day at a time while the
candidate day is a weekend day or the raw holiday call reports a
holiday.  The day-of-week test short-circuits before the holiday
call, as in the source; a throwing holiday call (oracle none) aborts
with an error; the fuel bounds the search, with none modelling a
search that has not yet terminated. -/
def nextTradingDaySkip (hol : HolidayOracle) (d : Nat) : Nat → Option (Except Unit Nat)
  | 0 => none
  | fuel + 1 =>
    if d % 7 = 0 ∨ d % 7 = 6 then nextTradingDaySkip hol (d + 1) fuel
    else
      match hol d with
      | none => some (Except.error ())
      | some true => nextTradingDaySkip hol (d + 1) fuel
      | some false => some (Except.ok d)

/-- The body of the try block of Dashboard.tsx getNextMarketStateChange:
weekend jump, before-open, during-hours, at-close, and after-close
branches.  Except.error models an exception escaping the body (the raw
holiday call in the skip loop); the outer none models a skip loop that
has not terminated within the fuel. -/
def schedBody (t : Nat) (hol : HolidayOracle) (fuel : Nat) :
    Option (Except Unit NextMarketChange) :=
  let currentDay := getDay t
  let cm := currentTimeInMinutes t
  if currentDay = 0 ∨ currentDay = 6 then
    let daysUntilMonday := if currentDay = 0 then 1 else 2
    let nextMonday := setTimeOfDay (addDays t daysUntilMonday) 9 30
    some (Except.ok
      { milliseconds := (nextMonday : Int) - (t : Int),
        nextStatus := .MARKET_OPEN,
        description := "Market opens Monday at 9:30 AM ET" })
  else if cm < MARKET_CONFIG.MARKET_OPEN then
    let marketOpen := setTimeOfDay t 9 30
    some (Except.ok
      { milliseconds := (marketOpen : Int) - (t : Int),
        nextStatus := .MARKET_OPEN,
        description := "Market opens today at 9:30 AM ET" })
  else if MARKET_CONFIG.MARKET_OPEN ≤ cm ∧ cm < MARKET_CONFIG.MARKET_CLOSE then
    let marketClose := setTimeOfDay t 16 30
    some (Except.ok
      { milliseconds := (marketClose : Int) - (t : Int),
        nextStatus := .FINAL_CAPTURE,
        description := "Market closes today at 4:30 PM ET" })
  else if cm = MARKET_CONFIG.MARKET_CLOSE then
    let finalCapture := setTimeOfDay t 16 31
    some (Except.ok
      { milliseconds := (finalCapture : Int) - (t : Int),
        nextStatus := .FINAL_CAPTURE,
        description := "Final capture window at 4:31 PM ET" })
  else
    let start := dayIndex t + (if currentDay = 5 then 3 else 1)
    match nextTradingDaySkip hol start fuel with
    | none => none
    | some (Except.error e) => some (Except.error e)
    | some (Except.ok d) =>
      let nextOpen := d * msPerDay + (9 * 60 + 30) * msPerMin
      some (Except.ok
        { milliseconds := (nextOpen : Int) - (t : Int),
          nextStatus := .MARKET_OPEN,
          description :=
            if currentDay = 5 then "Market opens Monday at 9:30 AM ET"
            else "Market opens tomorrow at 9:30 AM ET" })

/-- Dashboard.tsx getNextMarketStateChange: the try body, with the
catch clause turning any exception into the fixed fallback plan whose
predicted status is the current status computed before the try. -/
def getNextMarketStateChange (t : Nat) (hol : HolidayOracle) (fuel : Nat) :
    Option NextMarketChange :=
  match schedBody t hol fuel with
  | none => none
  | some (Except.error _) =>
      some { milliseconds := 60000,
             nextStatus := getMarketStatus t hol,
             description := "Fallback check in 1 minute" }
  | some (Except.ok p) => some p

/-- The final arithmetic of getTimeUntilMarketOpen: JavaScript
Math.floor corresponds to flooring division and the JavaScript
remainder operator to the truncating Int.tmod. -/
def mkTimeUntil (diffMs : Int) : TimeUntilOpen :=
  let diffMinutes := Int.fdiv diffMs 60000
  { days := Int.fdiv diffMinutes (24 * 60),
    hours := Int.fdiv (Int.tmod diffMinutes (24 * 60)) 60,
    minutes := Int.tmod diffMinutes 60,
    totalMinutes := diffMinutes }

/-- Dashboard.tsx getTimeUntilMarketOpen.  The do-while loop calls the
holiday predicate raw (outside any try/catch), so a throwing call
escapes the whole function: the result some (Except.error ()) models
the exception propagating to the caller. -/
def getTimeUntilMarketOpen (t : Nat) (hol : HolidayOracle) (fuel : Nat) :
    Option (Except Unit TimeUntilOpen) :=
  if isMarketOpen t hol then some (Except.ok { days := 0, hours := 0, minutes := 0, totalMinutes := 0 })
  else if currentTimeInMinutes t > MARKET_CONFIG.MARKET_CLOSE ∨ getDay t = 0 ∨ getDay t = 6 ∨
      isCurrentDateHoliday t hol then
    match nextTradingDaySkip hol (dayIndex t + 1) fuel with
    | none => none
    | some (Except.error e) => some (Except.error e)
    | some (Except.ok d) =>
      let nextOpen := d * msPerDay + (9 * 60 + 30) * msPerMin
      some (Except.ok (mkTimeUntil ((nextOpen : Int) - (t : Int))))
  else
    let nextOpen := setTimeOfDay t 9 30
    some (Except.ok (mkTimeUntil ((nextOpen : Int) - (t : Int))))

/-- A holiday oracle that never reports a holiday. -/
def holFalse : HolidayOracle := fun _ => some false

/-- A holiday oracle that reports every day as a holiday. -/
def holTrue : HolidayOracle := fun _ => some true

/-- A holiday oracle whose every call throws. -/
def holThrow : HolidayOracle := fun _ => none

/-- A holiday oracle flagging exactly day 8 (a Monday) as a holiday. -/
def holMonday8 : HolidayOracle := fun d => some (decide (d = 8))

/-- A holiday oracle applied after the defaulting catch of
isCurrentDateHoliday: a throwing call is replaced by false. -/
def totalize (hol : HolidayOracle) : HolidayOracle :=
  fun d => some ((hol d).getD false)

/-- Minutes since midnight computed from hours and minutes agrees with
direct division of the time of day. -/
lemma currentTimeInMinutes_eq (t : Nat) :
    currentTimeInMinutes t = t % msPerDay / msPerMin := by
  have h1 : t % msPerDay % msPerHour = t % msPerHour :=
    Nat.mod_mod_of_dvd t (by norm_num [msPerHour, msPerDay])
  unfold currentTimeInMinutes getHours getMinutes msPerDay msPerHour msPerMin at *
  omega

/-- Any instant precedes the next midnight. -/
lemma lt_next_day (t : Nat) : t < (dayIndex t + 1) * msPerDay := by
  unfold dayIndex msPerDay
  omega

/-- Day index of a clean day-plus-offset instant. -/
lemma dayIndex_mk (d c : Nat) (hc : c < msPerDay) :
    dayIndex (d * msPerDay + c) = d := by
  unfold dayIndex msPerDay at *
  omega

/-- Minutes since midnight of a clean day-plus-offset instant. -/
lemma cm_mk (d c : Nat) (hc : c < msPerDay) :
    currentTimeInMinutes (d * msPerDay + c) = c / msPerMin := by
  rw [currentTimeInMinutes_eq]
  unfold msPerDay msPerMin at *
  omega

/-- Day of week of a clean day-plus-offset instant. -/
lemma getDay_mk (d c : Nat) (hc : c < msPerDay) :
    getDay (d * msPerDay + c) = d % 7 := by
  unfold getDay
  rw [dayIndex_mk d c hc]

/-- Adding k days and setting the open time of day yields the clean
form used by the landing-instant lemmas. -/
lemma setTimeOfDay_addDays_930 (t k : Nat) :
    setTimeOfDay (addDays t k) 9 30 = (dayIndex t + k) * msPerDay + 570 * msPerMin := by
  unfold setTimeOfDay addDays dayIndex msPerDay msPerMin
  omega

/-- Setting the open time of day on the current day. -/
lemma setTimeOfDay_930 (t : Nat) :
    setTimeOfDay t 9 30 = dayIndex t * msPerDay + 570 * msPerMin := rfl

/-- Setting the close time of day on the current day. -/
lemma setTimeOfDay_1630 (t : Nat) :
    setTimeOfDay t 16 30 = dayIndex t * msPerDay + 990 * msPerMin := rfl

/-- Setting the final-capture time of day on the current day. -/
lemma setTimeOfDay_1631 (t : Nat) :
    setTimeOfDay t 16 31 = dayIndex t * msPerDay + 991 * msPerMin := rfl

/-- Any successful day returned by the skip loop is at least the
starting day, falls on a weekday, and is reported not a holiday. -/
lemma nextTradingDaySkip_ok (hol : HolidayOracle) (fuel : Nat) :
    ∀ s d : Nat, nextTradingDaySkip hol s fuel = some (Except.ok d) →
      s ≤ d ∧ d % 7 ≠ 0 ∧ d % 7 ≠ 6 ∧ hol d = some false := by
  induction fuel with
  | zero => intro s d h; simp [nextTradingDaySkip] at h
  | succ n ih =>
    intro s d h
    unfold nextTradingDaySkip at h
    split at h
    · obtain ⟨h1, h2⟩ := ih (s + 1) d h
      exact ⟨by omega, h2⟩
    · rename_i hsw
      cases hhol : hol s with
      | none => rw [hhol] at h; simp at h
      | some b =>
        rw [hhol] at h
        cases b with
        | true =>
          obtain ⟨h1, h2⟩ := ih (s + 1) d h
          exact ⟨by omega, h2⟩
        | false =>
          simp only [Option.some.injEq, Except.ok.injEq] at h
          subst h
          push_neg at hsw
          exact ⟨le_refl s, hsw.1, hsw.2, hhol⟩

/-- Classification at the open minute of a weekday whose holiday query
does not report a holiday. -/
lemma getMarketStatus_open_at (d : Nat) (hol : HolidayOracle)
    (h1 : 1 ≤ d % 7) (h5 : d % 7 ≤ 5) (hh : (hol d).getD false = false) :
    getMarketStatus (d * msPerDay + 570 * msPerMin) hol = .MARKET_OPEN := by
  have hc : 570 * msPerMin < msPerDay := by norm_num [msPerMin, msPerDay]
  have hday := dayIndex_mk d (570 * msPerMin) hc
  have hdow := getDay_mk d (570 * msPerMin) hc
  have hcm : currentTimeInMinutes (d * msPerDay + 570 * msPerMin) = 570 := by
    rw [cm_mk d _ hc]
    norm_num [msPerMin]
  unfold getMarketStatus isMarketOpen isCurrentDateHoliday isWeekday
  rw [hday, hdow, hcm, hh]
  simp [MARKET_CONFIG.TRADING_DAYS_MIN, MARKET_CONFIG.TRADING_DAYS_MAX,
        MARKET_CONFIG.MARKET_OPEN, MARKET_CONFIG.MARKET_CLOSE, h1, h5]

/-- Classification at the final-capture minute of a weekday whose
holiday query does not report a holiday. -/
lemma getMarketStatus_fc_at (d : Nat) (hol : HolidayOracle)
    (h1 : 1 ≤ d % 7) (h5 : d % 7 ≤ 5) (hh : (hol d).getD false = false) :
    getMarketStatus (d * msPerDay + 991 * msPerMin) hol = .FINAL_CAPTURE := by
  have hc : 991 * msPerMin < msPerDay := by norm_num [msPerMin, msPerDay]
  have hday := dayIndex_mk d (991 * msPerMin) hc
  have hdow := getDay_mk d (991 * msPerMin) hc
  have hcm : currentTimeInMinutes (d * msPerDay + 991 * msPerMin) = 991 := by
    rw [cm_mk d _ hc]
    norm_num [msPerMin]
  have h1n : ¬(d % 7 < 1) := by omega
  have h5n : ¬(5 < d % 7) := by omega
  unfold getMarketStatus isMarketOpen isFinalCaptureWindow isCurrentDateHoliday isWeekday
  rw [hday, hdow, hcm, hh]
  simp [MARKET_CONFIG.TRADING_DAYS_MIN, MARKET_CONFIG.TRADING_DAYS_MAX,
        MARKET_CONFIG.MARKET_OPEN, MARKET_CONFIG.MARKET_CLOSE, MARKET_CONFIG.FINAL_CLOSE,
        h1, h5, h1n, h5n]

/-- The weekend branch of the scheduler body: a fixed one- or two-day
jump to Monday at the open time, independent of the holiday oracle. -/
lemma schedBody_weekend (t : Nat) (hol : HolidayOracle) (fuel : Nat)
    (hw : getDay t = 0 ∨ getDay t = 6) :
    schedBody t hol fuel = some (Except.ok
      { milliseconds :=
          (((dayIndex t + (if getDay t = 0 then 1 else 2)) * msPerDay + 570 * msPerMin : Nat) : Int)
            - (t : Int),
        nextStatus := .MARKET_OPEN,
        description := "Market opens Monday at 9:30 AM ET" }) := by
  simp only [schedBody]
  rw [if_pos hw, setTimeOfDay_addDays_930]

/-- Case analysis of a successful (non-throwing) scheduler body run:
every produced plan aims at either a weekday open minute, the close
minute of the current day, or the final-capture minute of the current
day, and the target instant lies strictly in the future. -/
lemma schedBody_ok_cases (t : Nat) (hol : HolidayOracle) (fuel : Nat) (q : NextMarketChange)
    (h : schedBody t hol fuel = some (Except.ok q)) :
    (∃ d : Nat, 1 ≤ d % 7 ∧ d % 7 ≤ 5 ∧ q.nextStatus = .MARKET_OPEN ∧
        q.milliseconds = ((d * msPerDay + 570 * msPerMin : Nat) : Int) - (t : Int) ∧
        t < d * msPerDay + 570 * msPerMin) ∨
    (currentTimeInMinutes t < 990 ∧ q.nextStatus = .FINAL_CAPTURE ∧
        q.milliseconds = ((dayIndex t * msPerDay + 990 * msPerMin : Nat) : Int) - (t : Int) ∧
        t < dayIndex t * msPerDay + 990 * msPerMin) ∨
    (currentTimeInMinutes t = 990 ∧ 1 ≤ getDay t ∧ getDay t ≤ 5 ∧
        q.nextStatus = .FINAL_CAPTURE ∧
        q.milliseconds = ((dayIndex t * msPerDay + 991 * msPerMin : Nat) : Int) - (t : Int) ∧
        t < dayIndex t * msPerDay + 991 * msPerMin) := by
  have hcmeq := currentTimeInMinutes_eq t
  by_cases h0 : getDay t = 0
  · rw [schedBody_weekend t hol fuel (Or.inl h0)] at h
    simp only [Option.some.injEq, Except.ok.injEq] at h
    subst h
    rw [if_pos h0]
    left
    have hd0 : dayIndex t % 7 = 0 := h0
    refine ⟨dayIndex t + 1, by omega, by omega, rfl, rfl, ?_⟩
    have := lt_next_day t
    unfold msPerMin msPerDay at *
    omega
  · by_cases h6 : getDay t = 6
    · rw [schedBody_weekend t hol fuel (Or.inr h6)] at h
      simp only [Option.some.injEq, Except.ok.injEq] at h
      subst h
      rw [if_neg h0]
      left
      have hd6 : dayIndex t % 7 = 6 := h6
      refine ⟨dayIndex t + 2, by omega, by omega, rfl, rfl, ?_⟩
      have := lt_next_day t
      unfold msPerMin msPerDay at *
      omega
    · have hnw : ¬(getDay t = 0 ∨ getDay t = 6) := by simp [h0, h6]
      have hdow7 : dayIndex t % 7 < 7 := Nat.mod_lt _ (by omega)
      have hdneq0 : dayIndex t % 7 ≠ 0 := h0
      have hdneq6 : dayIndex t % 7 ≠ 6 := h6
      simp only [schedBody] at h
      rw [if_neg hnw] at h
      by_cases hb2 : currentTimeInMinutes t < MARKET_CONFIG.MARKET_OPEN
      · rw [if_pos hb2, setTimeOfDay_930] at h
        simp only [Option.some.injEq, Except.ok.injEq] at h
        subst h
        left
        refine ⟨dayIndex t, by omega, by omega, rfl, rfl, ?_⟩
        unfold MARKET_CONFIG.MARKET_OPEN at hb2
        unfold dayIndex msPerMin msPerDay at *
        omega
      · rw [if_neg hb2] at h
        by_cases hb3 : MARKET_CONFIG.MARKET_OPEN ≤ currentTimeInMinutes t ∧
            currentTimeInMinutes t < MARKET_CONFIG.MARKET_CLOSE
        · rw [if_pos hb3, setTimeOfDay_1630] at h
          simp only [Option.some.injEq, Except.ok.injEq] at h
          subst h
          right; left
          obtain ⟨hb3a, hb3b⟩ := hb3
          unfold MARKET_CONFIG.MARKET_CLOSE at hb3b
          refine ⟨by omega, rfl, rfl, ?_⟩
          unfold dayIndex msPerMin msPerDay at *
          omega
        · rw [if_neg hb3] at h
          by_cases hb4 : currentTimeInMinutes t = MARKET_CONFIG.MARKET_CLOSE
          · rw [if_pos hb4, setTimeOfDay_1631] at h
            simp only [Option.some.injEq, Except.ok.injEq] at h
            subst h
            right; right
            unfold MARKET_CONFIG.MARKET_CLOSE at hb4
            have hgdef : getDay t = dayIndex t % 7 := rfl
            refine ⟨by omega, by omega, by omega, rfl, rfl, ?_⟩
            unfold dayIndex msPerMin msPerDay at *
            omega
          · rw [if_neg hb4] at h
            split at h
            · exact absurd h (by simp)
            · exact absurd h (by simp)
            · rename_i d hskip
              simp only [Option.some.injEq, Except.ok.injEq] at h
              subst h
              left
              obtain ⟨hge, hw0, hw6, _⟩ := nextTradingDaySkip_ok hol fuel _ d hskip
              have hstart : dayIndex t + 1 ≤ dayIndex t + (if getDay t = 5 then 3 else 1) := by
                split <;> omega
              refine ⟨d, by omega, by omega, rfl, rfl, ?_⟩
              have := lt_next_day t
              unfold dayIndex msPerMin msPerDay at *
              omega

/-- The polling table exactly as the specification states it in the
section on the Polling Policy; a second definition, following the
words of the spec, to compare with the embedded pollingConfigFor. -/
def specPollingPolicy : MarketStatus → PollingConfig
  | .MARKET_OPEN => { priceInterval := some 60000, newsInterval := 900000, shouldPoll := true }
  | .FINAL_CAPTURE => { priceInterval := some 60000, newsInterval := 900000, shouldPoll := true }
  | .MARKET_CLOSED => { priceInterval := none, newsInterval := 7200000, shouldPoll := false }
  | .WEEKEND => { priceInterval := none, newsInterval := 7200000, shouldPoll := false }

/-- C1, counterexample: at the instant Monday 4:30:00 PM (day index 1,
minute 990) with no holidays, getMarketStatus returns MARKET_OPEN and
not MARKET_CLOSED, because the window test of isMarketOpen is
inclusive at the close minute; this falsifies the claim that the open
window is exclusive at close. -/
theorem close_boundary_cex :
    currentTimeInMinutes 145800000 = MARKET_CONFIG.MARKET_CLOSE ∧
      getDay 145800000 = 1 ∧ holFalse (dayIndex 145800000) = some false ∧
      getMarketStatus 145800000 holFalse = .MARKET_OPEN ∧
      getMarketStatus 145800000 holFalse ≠ .MARKET_CLOSED := by
  refine ⟨by decide, by decide, rfl, by decide, by decide⟩

/-- C1, amended: on a non-holiday trading weekday, a clock reading
whose minutes since midnight equal exactly the close minute (990) is
classified MARKET_OPEN: the open window of getMarketStatus is
inclusive at close. -/
theorem close_boundary_amended (t : Nat) (hol : HolidayOracle)
    (h1 : 1 ≤ getDay t) (h5 : getDay t ≤ 5)
    (hh : (hol (dayIndex t)).getD false = false)
    (hm : currentTimeInMinutes t = MARKET_CONFIG.MARKET_CLOSE) :
    getMarketStatus t hol = .MARKET_OPEN := by
  unfold getMarketStatus isMarketOpen isCurrentDateHoliday isWeekday
  rw [hh, hm]
  simp [MARKET_CONFIG.TRADING_DAYS_MIN, MARKET_CONFIG.TRADING_DAYS_MAX,
        MARKET_CONFIG.MARKET_OPEN, MARKET_CONFIG.MARKET_CLOSE, h1, h5]

/-- C1, witness for the amended theorem at Monday 4:30 PM with no
holidays. -/
theorem close_boundary_amended_witness :
    getMarketStatus 145800000 holFalse = MarketStatus.MARKET_OPEN :=
  close_boundary_amended 145800000 holFalse (by decide) (by decide) (by decide) (by decide)

/-- C2: whenever the scheduler returns a plan (for any clock reading,
any holiday oracle and any fuel), its milliseconds field is strictly
positive. -/
theorem scheduler_ms_pos (t : Nat) (hol : HolidayOracle) (fuel : Nat)
    (p : NextMarketChange) (h : getNextMarketStateChange t hol fuel = some p) :
    0 < p.milliseconds := by
  unfold getNextMarketStateChange at h
  cases hb : schedBody t hol fuel with
  | none => rw [hb] at h; simp at h
  | some r =>
    rw [hb] at h
    cases r with
    | error e =>
      simp only [Option.some.injEq] at h
      subst h
      norm_num
    | ok q =>
      simp only [Option.some.injEq] at h
      subst h
      rcases schedBody_ok_cases t hol fuel q hb with
        ⟨d, _, _, _, hms, hlt⟩ | ⟨_, _, hms, hlt⟩ | ⟨_, _, _, _, hms, hlt⟩ <;>
        · rw [hms]; omega

/-- C2, witness: the plan computed on Monday 10:00 AM with no holidays
has positive milliseconds. -/
theorem scheduler_ms_pos_witness :
    (0 : Int) < ({ milliseconds := 23400000, nextStatus := .FINAL_CAPTURE,
                   description := "Market closes today at 4:30 PM ET" } : NextMarketChange).milliseconds :=
  scheduler_ms_pos 122400000 holFalse 1
    { milliseconds := 23400000, nextStatus := .FINAL_CAPTURE,
      description := "Market closes today at 4:30 PM ET" } rfl

/-- C3, counterexample: on Monday 10:00 AM with no holidays the
scheduler promises FINAL_CAPTURE after 23400000 ms, but classifying at
exactly that instant (Monday 4:30 PM) yields MARKET_OPEN, so the
round-trip property fails as stated. -/
theorem roundTrip_cex :
    getNextMarketStateChange 122400000 holFalse 1 =
      some { milliseconds := 23400000, nextStatus := .FINAL_CAPTURE,
             description := "Market closes today at 4:30 PM ET" } ∧
      getMarketStatus (122400000 + 23400000) holFalse = .MARKET_OPEN ∧
      MarketStatus.MARKET_OPEN ≠ MarketStatus.FINAL_CAPTURE := by
  refine ⟨rfl, by decide, by decide⟩

/-- C3, amended: the round-trip holds for every non-degraded plan whose
landing day is not reported a holiday, provided the predicted state is
MARKET_OPEN or the plan was computed exactly at the close minute;
plans computed strictly inside the open window predict FINAL_CAPTURE
but land on the close minute, which is classified MARKET_OPEN. -/
theorem roundTrip_amended (t : Nat) (hol : HolidayOracle) (fuel : Nat) (p : NextMarketChange)
    (hbody : schedBody t hol fuel = some (Except.ok p))
    (hland : (hol (dayIndex (t + p.milliseconds.toNat))).getD false = false)
    (hcase : p.nextStatus = .MARKET_OPEN ∨ currentTimeInMinutes t = MARKET_CONFIG.MARKET_CLOSE) :
    getNextMarketStateChange t hol fuel = some p ∧
      getMarketStatus (t + p.milliseconds.toNat) hol = p.nextStatus := by
  refine ⟨by unfold getNextMarketStateChange; rw [hbody], ?_⟩
  rcases schedBody_ok_cases t hol fuel p hbody with
    ⟨d, h1, h5, hst, hms, hlt⟩ | ⟨hlt990, hst, hms, hlt⟩ | ⟨hcm, hd1, hd5, hst, hms, hlt⟩
  · have hland2 : t + p.milliseconds.toNat = d * msPerDay + 570 * msPerMin := by
      rw [hms]; omega
    rw [hland2] at hland ⊢
    rw [hst]
    refine getMarketStatus_open_at d hol h1 h5 ?_
    rwa [dayIndex_mk d _ (by norm_num [msPerMin, msPerDay])] at hland
  · exfalso
    rcases hcase with hopen | h990
    · rw [hst] at hopen
      exact absurd hopen (by decide)
    · unfold MARKET_CONFIG.MARKET_CLOSE at h990
      omega
  · have hland2 : t + p.milliseconds.toNat = dayIndex t * msPerDay + 991 * msPerMin := by
      rw [hms]; omega
    rw [hland2] at hland ⊢
    rw [hst]
    refine getMarketStatus_fc_at (dayIndex t) hol hd1 hd5 ?_
    rwa [dayIndex_mk (dayIndex t) _ (by norm_num [msPerMin, msPerDay])] at hland

/-- C3, witness for the amended theorem: the plan computed at Monday
4:30 PM fires one minute later at the final-capture minute, where the
classification is indeed FINAL_CAPTURE. -/
theorem roundTrip_amended_witness :
    getNextMarketStateChange 145800000 holFalse 1 =
        some { milliseconds := 60000, nextStatus := MarketStatus.FINAL_CAPTURE,
               description := "Final capture window at 4:31 PM ET" } ∧
      getMarketStatus (145800000 + Int.toNat 60000) holFalse = MarketStatus.FINAL_CAPTURE :=
  roundTrip_amended 145800000 holFalse 1
    { milliseconds := 60000, nextStatus := .FINAL_CAPTURE,
      description := "Final capture window at 4:31 PM ET" }
    rfl (by decide) (Or.inr (by decide))

/-- C4, counterexample: from Saturday noon with an oracle flagging the
following Monday (day 8) as a holiday, the scheduler still lands on
that Monday at the open time, which is a holiday and which the
classifier calls MARKET_CLOSED: the weekend branch never re-tests the
holiday oracle, falsifying the claim that the returned duration always
lands on a non-holiday trading weekday. -/
theorem weekend_holiday_landing_cex :
    getNextMarketStateChange 561600000 holMonday8 10 =
      some { milliseconds := 163800000, nextStatus := .MARKET_OPEN,
             description := "Market opens Monday at 9:30 AM ET" } ∧
      dayIndex (561600000 + 163800000) = 8 ∧ holMonday8 8 = some true ∧
      getMarketStatus (561600000 + 163800000) holMonday8 = .MARKET_CLOSED := by
  refine ⟨rfl, by decide, by decide, by decide⟩

/-- C4, amended: on a weekend clock reading the scheduler jumps a
fixed one day (from Sunday) or two days (from Saturday) to the next
Monday at the open time and predicts MARKET_OPEN, without ever
consulting the holiday oracle; the landing instant is always a Monday
at the open minute, but it may be a holiday. -/
theorem weekend_plan_amended (t : Nat) (hol hol2 : HolidayOracle) (fuel : Nat)
    (hw : getDay t = 0 ∨ getDay t = 6) :
    ∃ ms : Int,
      getNextMarketStateChange t hol fuel =
        some { milliseconds := ms, nextStatus := .MARKET_OPEN,
               description := "Market opens Monday at 9:30 AM ET" } ∧
      (t : Int) + ms =
        (((dayIndex t + (if getDay t = 0 then 1 else 2)) * msPerDay + 570 * msPerMin : Nat) : Int) ∧
      getDay ((dayIndex t + (if getDay t = 0 then 1 else 2)) * msPerDay + 570 * msPerMin) = 1 ∧
      currentTimeInMinutes
          ((dayIndex t + (if getDay t = 0 then 1 else 2)) * msPerDay + 570 * msPerMin) = 570 ∧
      getNextMarketStateChange t hol2 fuel = getNextMarketStateChange t hol fuel := by
  have hc : 570 * msPerMin < msPerDay := by norm_num [msPerMin, msPerDay]
  refine ⟨(((dayIndex t + (if getDay t = 0 then 1 else 2)) * msPerDay + 570 * msPerMin : Nat) : Int)
      - (t : Int), ?_, by ring, ?_, ?_, ?_⟩
  · unfold getNextMarketStateChange
    rw [schedBody_weekend t hol fuel hw]
  · rw [getDay_mk _ _ hc]
    rcases hw with h0 | h6
    · rw [if_pos h0]
      have hd0 : dayIndex t % 7 = 0 := h0
      omega
    · have h0 : ¬(getDay t = 0) := by rw [h6]; decide
      rw [if_neg h0]
      have hd6 : dayIndex t % 7 = 6 := h6
      omega
  · rw [cm_mk _ _ hc]
    norm_num [msPerMin]
  · unfold getNextMarketStateChange
    rw [schedBody_weekend t hol fuel hw, schedBody_weekend t hol2 fuel hw]

/-- C4, witness for the amended theorem at Saturday noon: every oracle
(here one flagging all days) produces the same Monday-open plan. -/
theorem weekend_plan_amended_witness :
    ∃ ms : Int,
      getNextMarketStateChange 561600000 holFalse 3 =
        some { milliseconds := ms, nextStatus := MarketStatus.MARKET_OPEN,
               description := "Market opens Monday at 9:30 AM ET" } ∧
      (561600000 : Int) + ms = ((725400000 : Nat) : Int) ∧
      getDay 725400000 = 1 ∧
      currentTimeInMinutes 725400000 = 570 ∧
      getNextMarketStateChange 561600000 holTrue 3 = getNextMarketStateChange 561600000 holFalse 3 :=
  weekend_plan_amended 561600000 holFalse holTrue 3 (Or.inr (by decide))

/-- C5: on a weekday flagged as a holiday by the oracle, the
classification is MARKET_CLOSED regardless of the time of day. -/
theorem holiday_weekday_closed (t : Nat) (hol : HolidayOracle)
    (h1 : 1 ≤ getDay t) (h5 : getDay t ≤ 5)
    (hh : hol (dayIndex t) = some true) :
    getMarketStatus t hol = .MARKET_CLOSED := by
  unfold getMarketStatus isCurrentDateHoliday
  rw [hh]
  simp

/-- C5, witness at Tuesday 10:00 AM with an all-holiday oracle. -/
theorem holiday_weekday_closed_witness :
    getMarketStatus 208800000 holTrue = MarketStatus.MARKET_CLOSED :=
  holiday_weekday_closed 208800000 holTrue (by decide) (by decide) rfl

/-- C6, counterexample: Saturday noon with an oracle flagging the day
as a holiday is classified MARKET_CLOSED, not WEEKEND, because the
holiday check has priority over the weekend check; this falsifies the
claim for every holiday oracle. -/
theorem weekend_holiday_status_cex :
    getDay 561600000 = 6 ∧ getMarketStatus 561600000 holTrue = .MARKET_CLOSED ∧
      getMarketStatus 561600000 holTrue ≠ .WEEKEND := by
  refine ⟨by decide, by decide, by decide⟩

/-- C6, amended: on a Saturday or Sunday clock reading whose holiday
query does not report a holiday (including a throwing query, which is
defaulted to not-holiday), the classification is WEEKEND regardless of
the time of day. -/
theorem weekend_status_amended (t : Nat) (hol : HolidayOracle)
    (hw : getDay t = 0 ∨ getDay t = 6)
    (hh : (hol (dayIndex t)).getD false = false) :
    getMarketStatus t hol = .WEEKEND := by
  unfold getMarketStatus isCurrentDateHoliday isWeekday
  rw [hh]
  rcases hw with h | h <;>
    simp [h, MARKET_CONFIG.TRADING_DAYS_MIN, MARKET_CONFIG.TRADING_DAYS_MAX]

/-- C6, witness at Saturday noon with no holidays. -/
theorem weekend_status_amended_witness :
    getMarketStatus 561600000 holFalse = MarketStatus.WEEKEND :=
  weekend_status_amended 561600000 holFalse (Or.inr (by decide)) (by decide)

/-- C7: the polling configuration is the pure table of the spec: for
MARKET_OPEN price 60000, news 900000, polling on; for FINAL_CAPTURE
the same intervals as open with polling on; for MARKET_CLOSED and
WEEKEND price null, news 7200000, polling off; and getPollingConfig is
exactly this table applied to the session state. -/
theorem polling_table_correct (s : MarketStatus) (t : Nat) (hol : HolidayOracle) :
    pollingConfigFor s = specPollingPolicy s ∧
      getPollingConfig t hol = specPollingPolicy (getMarketStatus t hol) := by
  constructor
  · cases s <;> rfl
  · unfold getPollingConfig
    cases getMarketStatus t hol <;> rfl

/-- C8: whenever the body of the scheduler raises (the raw holiday
call in its skip loop throwing), getNextMarketStateChange swallows the
exception and returns the fixed fallback plan: 60000 ms, predicted
state equal to the current classification, and the degraded-mode
description. -/
theorem scheduler_fallback (t : Nat) (hol : HolidayOracle) (fuel : Nat)
    (herr : schedBody t hol fuel = some (Except.error ())) :
    getNextMarketStateChange t hol fuel =
      some { milliseconds := 60000, nextStatus := getMarketStatus t hol,
             description := "Fallback check in 1 minute" } := by
  unfold getNextMarketStateChange
  rw [herr]

/-- C8, witness: on Monday 5:00 PM with an always-throwing oracle the
skip loop throws and the fallback plan is returned. -/
theorem scheduler_fallback_witness :
    getNextMarketStateChange 147600000 holThrow 5 =
      some { milliseconds := 60000, nextStatus := getMarketStatus 147600000 holThrow,
             description := "Fallback check in 1 minute" } :=
  scheduler_fallback 147600000 holThrow 5 rfl

/-- C9, counterexample: at Saturday noon with an always-throwing
holiday oracle, getTimeUntilMarketOpen evaluates the raw holiday call
inside its do-while loop, outside any try/catch, and the exception
(modelled by Except.error) propagates to the caller, falsifying the
claim that every core operation recovers locally. -/
theorem timeUntilOpen_propagates_cex :
    getTimeUntilMarketOpen 561600000 holThrow 10 = some (Except.error ()) := rfl

/-- C9, amended: the session classification and the polling policy
recover locally from a throwing holiday query and treat it exactly as
not-a-holiday — replacing every thrown answer by false changes
neither getMarketStatus nor getPollingConfig — and being total
functions they never propagate; the time-until-open computation does
not enjoy this (see the counterexample), and the transition scheduler
catches the exception but answers with the fallback plan instead. -/
theorem holiday_throw_failOpen (t : Nat) (hol : HolidayOracle) :
    getMarketStatus t hol = getMarketStatus t (totalize hol) ∧
      getPollingConfig t hol = getPollingConfig t (totalize hol) := by
  have key : isCurrentDateHoliday t (totalize hol) = isCurrentDateHoliday t hol := by
    unfold isCurrentDateHoliday totalize
    cases hol (dayIndex t) <;> rfl
  have hstat : getMarketStatus t hol = getMarketStatus t (totalize hol) := by
    unfold getMarketStatus isMarketOpen
    rw [key]
  exact ⟨hstat, by unfold getPollingConfig; rw [hstat]⟩

/-- C10: for every session state, polling is enabled exactly when the
price interval is non-null. -/
theorem shouldPoll_iff_price (s : MarketStatus) :
    (pollingConfigFor s).shouldPoll = true ↔ (pollingConfigFor s).priceInterval ≠ none := by
  cases s <;> simp [pollingConfigFor]

end StockMonitor
